import Mathlib

/-!
Shallow embedding of the mrbgpdv2-study BGP speaker (Rust), covering the
wire codec for NLRI (src/routing.rs), the framed connection
(src/connection.rs), the message codec dispatch (src/packets/message.rs),
the event type (src/event.rs) and the peer session automaton (src/peer.rs).
Machine bytes are modelled as `Nat` values (< 256 where it matters),
fallible Rust code as `Except`/`Option`, and Rust panics as an explicit
`panic` alternative of the result type.
-/

namespace Mrbgpdv2

/-- IPv4 address as four octets, most significant first (std::net::Ipv4Addr). -/
structure Ipv4Addr where
  o1 : Nat
  o2 : Nat
  o3 : Nat
  o4 : Nat
deriving DecidableEq, Repr

/-- Well-formedness of an address: each octet fits in one byte. -/
def Ipv4Addr.wf (a : Ipv4Addr) : Prop :=
  a.o1 < 256 ∧ a.o2 < 256 ∧ a.o3 < 256 ∧ a.o4 < 256

instance (a : Ipv4Addr) : Decidable a.wf := by
  unfold Ipv4Addr.wf
  infer_instance

/-- Number of leading bits of octet index j (0-based) kept by a prefix of length p. -/
def keepBits (p j : Nat) : Nat := min 8 (p - 8 * j)

/-- Keep the top k bits of an octet, clearing the remaining low bits. -/
def maskOctet (b k : Nat) : Nat := b / 2 ^ (8 - k) * 2 ^ (8 - k)

/-- Ipv4Network from src/routing.rs: an (address, prefix length) pair wrapping
ipnetwork::Ipv4Network. Equality is structural on both fields. -/
structure Ipv4Network where
  addr : Ipv4Addr
  prefixLen : Nat
deriving DecidableEq, Repr

/-- ipnetwork::Ipv4Network::network(): the address with host bits beyond the
prefix cleared to zero. -/
def Ipv4Network.network (n : Ipv4Network) : Ipv4Addr :=
  ⟨maskOctet n.addr.o1 (keepBits n.prefixLen 0),
   maskOctet n.addr.o2 (keepBits n.prefixLen 1),
   maskOctet n.addr.o3 (keepBits n.prefixLen 2),
   maskOctet n.addr.o4 (keepBits n.prefixLen 3)⟩

/-- The invariant of the spec's data model: host bits beyond the prefix are zero,
i.e. the stored address equals its own network address. -/
def Ipv4Network.hostBitsZero (n : Ipv4Network) : Prop :=
  n.network = n.addr

instance (n : Ipv4Network) : Decidable n.hostBitsZero := by
  unfold Ipv4Network.hostBitsZero
  infer_instance

/-- Ipv4Network::new (src/routing.rs): succeeds iff the prefix length is at most
32 (ipnetwork::Ipv4Network::new rejects larger prefixes). The error payload
(ConstructIpv4NetworkError) carries no data we need. -/
def Ipv4Network.new (a : Ipv4Addr) (p : Nat) : Except Unit Ipv4Network :=
  if p ≤ 32 then .ok ⟨a, p⟩ else .error ()

/-- Result of Ipv4Network::from_u8_slice: a decoded list, a
ConvertBytesToBgpMessageError, or a Rust panic (out-of-bounds slice index). -/
inductive NlriDecode where
  | ok (networks : List Ipv4Network)
  | error
  | panic
deriving DecidableEq, Repr

/-- Sequencing of one decoded network with the rest of the loop: a construction
error aborts decoding immediately (the `?` operator), otherwise the outcome of
the remaining iterations is propagated. -/
def NlriDecode.consNet (e : Except Unit Ipv4Network) (r : NlriDecode) : NlriDecode :=
  match e, r with
  | .error _, _ => .error
  | .ok _, .error => .error
  | .ok _, .panic => .panic
  | .ok n, .ok l => .ok (n :: l)

/-- Loop body of Ipv4Network::from_u8_slice (src/routing.rs lines 191-237),
recursing on the bytes not yet consumed. The Rust code branches on the prefix
byte with ranges 0, 1..=8, 9..=16, 17..=24, 24..=32 (the last effectively
25..=32 since 24 is taken by the previous arm) and reads the address octets
with unchecked indexing, so missing octets are a panic, and any prefix above 32
falls to the final arm returning an error. The prefix-0 arm advances the index
one extra byte (`i += 1` after the push), modelled as `rest.drop 1`. -/
def Ipv4Network.fromU8Go : List Nat → NlriDecode
  | [] => .ok []
  | p :: rest =>
    if p = 0 then
      match rest with
      | [] => NlriDecode.consNet (Ipv4Network.new ⟨0, 0, 0, 0⟩ p) (.ok [])
      | _ :: r => NlriDecode.consNet (Ipv4Network.new ⟨0, 0, 0, 0⟩ p) (Ipv4Network.fromU8Go r)
    else if p ≤ 8 then
      match rest with
      | b1 :: r => NlriDecode.consNet (Ipv4Network.new ⟨b1, 0, 0, 0⟩ p) (Ipv4Network.fromU8Go r)
      | [] => .panic
    else if p ≤ 16 then
      match rest with
      | b1 :: b2 :: r =>
        NlriDecode.consNet (Ipv4Network.new ⟨b1, b2, 0, 0⟩ p) (Ipv4Network.fromU8Go r)
      | _ => .panic
    else if p ≤ 24 then
      match rest with
      | b1 :: b2 :: b3 :: r =>
        NlriDecode.consNet (Ipv4Network.new ⟨b1, b2, b3, 0⟩ p) (Ipv4Network.fromU8Go r)
      | _ => .panic
    else if p ≤ 32 then
      match rest with
      | b1 :: b2 :: b3 :: b4 :: r =>
        NlriDecode.consNet (Ipv4Network.new ⟨b1, b2, b3, b4⟩ p) (Ipv4Network.fromU8Go r)
      | _ => .panic
    else .error

/-- Ipv4Network::from_u8_slice (src/routing.rs). -/
def Ipv4Network.from_u8_slice (bytes : List Nat) : NlriDecode :=
  Ipv4Network.fromU8Go bytes

/-- From<&Ipv4Network> for BytesMut (src/routing.rs lines 251-269): the prefix
byte followed by the leading octets of the network address; Rust match ranges
0, 1..9, 9..17, 17..25, 25..33 with a panicking catch-all (modelled as none). -/
def Ipv4Network.encode (n : Ipv4Network) : Option (List Nat) :=
  let p := n.prefixLen
  let m := n.network
  if p = 0 then some [p]
  else if p ≤ 8 then some [p, m.o1]
  else if p ≤ 16 then some [p, m.o1, m.o2]
  else if p ≤ 24 then some [p, m.o1, m.o2, m.o3]
  else if p ≤ 32 then some [p, m.o1, m.o2, m.o3, m.o4]
  else none

/-- Ipv4Network::bytes_len (src/routing.rs lines 239-248): Rust match ranges
0, 1..9, 9..17, 17..25, 25..33, with a panicking catch-all (modelled as none). -/
def Ipv4Network.bytes_len (n : Ipv4Network) : Option Nat :=
  let p := n.prefixLen
  if p = 0 then some 1
  else if p ≤ 8 then some 2
  else if p ≤ 16 then some 3
  else if p ≤ 24 then some 4
  else if p ≤ 32 then some 5
  else none

lemma fromU8Go_err (p : Nat) (rest : List Nat) (h : 33 ≤ p) (hp : p ≤ 255) :
    Ipv4Network.fromU8Go (p :: rest) = .error := by
  rcases rest with _ | ⟨b1, _ | ⟨b2, _ | ⟨b3, _ | ⟨b4, r⟩⟩⟩⟩ <;>
    interval_cases p <;> rfl

lemma fromU8Go_panic (p : Nat) (rest : List Nat) (h1 : 1 ≤ p) (h32 : p ≤ 32)
    (hlen : rest.length < (p + 7) / 8) :
    Ipv4Network.fromU8Go (p :: rest) = .panic := by
  rcases rest with _ | ⟨b1, _ | ⟨b2, _ | ⟨b3, _ | ⟨b4, r⟩⟩⟩⟩ <;>
    interval_cases p <;>
    first
      | rfl
      | (exfalso; simp at hlen; omega)
      | (exfalso; simp at hlen)

lemma fromU8Go_seg1 (p b1 : Nat) (hl : 1 ≤ p) (hh : p ≤ 8) :
    Ipv4Network.fromU8Go [p, b1] = .ok [⟨⟨b1, 0, 0, 0⟩, p⟩] := by
  interval_cases p <;> rfl

lemma fromU8Go_seg2 (p b1 b2 : Nat) (hl : 9 ≤ p) (hh : p ≤ 16) :
    Ipv4Network.fromU8Go [p, b1, b2] = .ok [⟨⟨b1, b2, 0, 0⟩, p⟩] := by
  interval_cases p <;> rfl

lemma fromU8Go_seg3 (p b1 b2 b3 : Nat) (hl : 17 ≤ p) (hh : p ≤ 24) :
    Ipv4Network.fromU8Go [p, b1, b2, b3] = .ok [⟨⟨b1, b2, b3, 0⟩, p⟩] := by
  interval_cases p <;> rfl

lemma fromU8Go_seg4 (p b1 b2 b3 b4 : Nat) (hl : 25 ≤ p) (hh : p ≤ 32) :
    Ipv4Network.fromU8Go [p, b1, b2, b3, b4] = .ok [⟨⟨b1, b2, b3, b4⟩, p⟩] := by
  interval_cases p <;> rfl

lemma maskOctet_keepBits_zero (x p j : Nat) (hx : x < 256) (h : p ≤ 8 * j) :
    maskOctet x (keepBits p j) = 0 := by
  unfold maskOctet keepBits
  have hpj : p - 8 * j = 0 := by omega
  rw [hpj]
  simp [Nat.div_eq_of_lt hx]

lemma hostBitsZero_octets (a b c d p : Nat)
    (hz : Ipv4Network.hostBitsZero ⟨⟨a, b, c, d⟩, p⟩) :
    maskOctet a (keepBits p 0) = a ∧ maskOctet b (keepBits p 1) = b ∧
    maskOctet c (keepBits p 2) = c ∧ maskOctet d (keepBits p 3) = d := by
  unfold Ipv4Network.hostBitsZero Ipv4Network.network at hz
  simp only [Ipv4Addr.mk.injEq] at hz
  exact hz

/-- C1: for every Ipv4Network n whose prefix is between 0 and 32 and whose host
bits beyond the prefix are zero (with byte-sized octets), decoding the byte
encoding of n (Ipv4Network::from_u8_slice applied to BytesMut::from(&n))
returns Ok of the one-element list [n]. -/
theorem nlri_roundtrip (n : Ipv4Network) (hp : n.prefixLen ≤ 32)
    (hz : n.hostBitsZero) (hw : n.addr.wf) :
    n.encode.map Ipv4Network.from_u8_slice = some (.ok [n]) := by
  obtain ⟨⟨a, b, c, d⟩, p⟩ := n
  obtain ⟨ha, hb, hc, hd⟩ := hw
  obtain ⟨hz1, hz2, hz3, hz4⟩ := hostBitsZero_octets a b c d p hz
  simp only [Ipv4Network.encode, Ipv4Network.network]
  by_cases h0 : p = 0
  · subst h0
    have hA : a = 0 := by rw [← hz1, maskOctet_keepBits_zero a 0 0 ha (by omega)]
    have hB : b = 0 := by rw [← hz2, maskOctet_keepBits_zero b 0 1 hb (by omega)]
    have hC : c = 0 := by rw [← hz3, maskOctet_keepBits_zero c 0 2 hc (by omega)]
    have hD : d = 0 := by rw [← hz4, maskOctet_keepBits_zero d 0 3 hd (by omega)]
    subst hA; subst hB; subst hC; subst hD
    decide
  · by_cases h8 : p ≤ 8
    · have hB : b = 0 := by rw [← hz2, maskOctet_keepBits_zero b p 1 hb (by omega)]
      have hC : c = 0 := by rw [← hz3, maskOctet_keepBits_zero c p 2 hc (by omega)]
      have hD : d = 0 := by rw [← hz4, maskOctet_keepBits_zero d p 3 hd (by omega)]
      subst hB; subst hC; subst hD
      simp only [if_neg h0, if_pos h8, hz1, Option.map_some']
      rw [Ipv4Network.from_u8_slice, fromU8Go_seg1 p a (by omega) h8]
    · by_cases h16 : p ≤ 16
      · have hC : c = 0 := by rw [← hz3, maskOctet_keepBits_zero c p 2 hc (by omega)]
        have hD : d = 0 := by rw [← hz4, maskOctet_keepBits_zero d p 3 hd (by omega)]
        subst hC; subst hD
        simp only [if_neg h0, if_neg h8, if_pos h16, hz1, hz2, Option.map_some']
        rw [Ipv4Network.from_u8_slice, fromU8Go_seg2 p a b (by omega) h16]
      · by_cases h24 : p ≤ 24
        · have hD : d = 0 := by rw [← hz4, maskOctet_keepBits_zero d p 3 hd (by omega)]
          subst hD
          simp only [if_neg h0, if_neg h8, if_neg h16, if_pos h24, hz1, hz2, hz3,
            Option.map_some']
          rw [Ipv4Network.from_u8_slice, fromU8Go_seg3 p a b c (by omega) h24]
        · simp only [if_neg h0, if_neg h8, if_neg h16, if_neg h24, if_pos hp, hz1, hz2,
            hz3, hz4, Option.map_some']
          rw [Ipv4Network.from_u8_slice, fromU8Go_seg4 p a b c d (by omega) hp]

/-- Witness for C1 at the concrete network 10.100.220.0/24. -/
theorem nlri_roundtrip_witness :
    (Ipv4Network.encode ⟨⟨10, 100, 220, 0⟩, 24⟩).map Ipv4Network.from_u8_slice =
      some (.ok [⟨⟨10, 100, 220, 0⟩, 24⟩]) :=
  nlri_roundtrip ⟨⟨10, 100, 220, 0⟩, 24⟩ (by decide) (by decide) (by decide)

/-- C3 counterexample: on the truncated input [8] (prefix 8 with no address
byte) Ipv4Network::from_u8_slice indexes out of bounds and panics; it does NOT
return a MalformedNlri-style decode error as the claim states. -/
theorem from_u8_slice_truncated_counterexample :
    Ipv4Network.from_u8_slice [8] = .panic ∧
    Ipv4Network.from_u8_slice [8] ≠ .error := by
  decide

/-- C3 (amended): for every input byte sequence, a declared prefix length above
32 makes from_u8_slice return the MalformedNlri-style decode error, but a
declared prefix length that requires more address bytes than remain makes it
index out of bounds and panic rather than return an error. -/
theorem from_u8_slice_amended :
    (∀ p rest, 33 ≤ p → p ≤ 255 →
      Ipv4Network.from_u8_slice (p :: rest) = .error) ∧
    (∀ p rest, 1 ≤ p → p ≤ 32 → rest.length < (p + 7) / 8 →
      Ipv4Network.from_u8_slice (p :: rest) = .panic) := by
  constructor
  · intro p rest h hp
    exact fromU8Go_err p rest h hp
  · intro p rest h1 h32 hlen
    exact fromU8Go_panic p rest h1 h32 hlen

/-- Witness for C3 (amended) at prefix byte 33 (error) and at the truncated
prefix 16 (panic). -/
theorem from_u8_slice_amended_witness :
    Ipv4Network.from_u8_slice [33] = .error ∧
    Ipv4Network.from_u8_slice [16] = .panic :=
  ⟨from_u8_slice_amended.1 33 [] (by decide) (by decide),
   from_u8_slice_amended.2 16 [] (by decide) (by decide) (by decide)⟩

/-- C8: for every Ipv4Network with prefix p in 0..=32, bytes_len and the length
of the encoded bytes equal 1 + ceiling(p/8); prefix 0 encodes to the single
byte 0x00 and prefix 32 encodes to five bytes. -/
theorem bytes_len_spec (n : Ipv4Network) (hp : n.prefixLen ≤ 32) :
    n.bytes_len = some (1 + (n.prefixLen + 7) / 8) ∧
    n.encode.map List.length = some (1 + (n.prefixLen + 7) / 8) ∧
    (n.prefixLen = 0 → n.encode = some [0]) ∧
    (n.prefixLen = 32 → n.encode.map List.length = some 5) := by
  obtain ⟨a, p⟩ := n
  simp only [Ipv4Network.bytes_len, Ipv4Network.encode]
  dsimp only at hp ⊢
  by_cases h0 : p = 0
  · subst h0; simp
  · by_cases h8 : p ≤ 8
    · simp only [if_neg h0, if_pos h8, Option.map_some']
      refine ⟨by congr 1; omega, by simp; omega, by intro h; exfalso; omega,
        by intro h; exfalso; omega⟩
    · by_cases h16 : p ≤ 16
      · simp only [if_neg h0, if_neg h8, if_pos h16, Option.map_some']
        refine ⟨by congr 1; omega, by simp; omega, by intro h; exfalso; omega,
          by intro h; exfalso; omega⟩
      · by_cases h24 : p ≤ 24
        · simp only [if_neg h0, if_neg h8, if_neg h16, if_pos h24, Option.map_some']
          refine ⟨by congr 1; omega, by simp; omega, by intro h; exfalso; omega,
            by intro h; exfalso; omega⟩
        · simp only [if_neg h0, if_neg h8, if_neg h16, if_neg h24, if_pos hp,
            Option.map_some']
          refine ⟨by congr 1; omega, by simp; omega, by intro h; exfalso; omega,
            by simp⟩

/-- Witness for C8 at the concrete network 192.168.1.4/32. -/
theorem bytes_len_spec_witness :
    Ipv4Network.bytes_len ⟨⟨192, 168, 1, 4⟩, 32⟩ = some (1 + (32 + 7) / 8) ∧
    (Ipv4Network.encode ⟨⟨192, 168, 1, 4⟩, 32⟩).map List.length =
      some (1 + (32 + 7) / 8) ∧
    ((32 : Nat) = 0 → Ipv4Network.encode ⟨⟨192, 168, 1, 4⟩, 32⟩ = some [0]) ∧
    ((32 : Nat) = 32 →
      (Ipv4Network.encode ⟨⟨192, 168, 1, 4⟩, 32⟩).map List.length = some 5) :=
  bytes_len_spec ⟨⟨192, 168, 1, 4⟩, 32⟩ (by decide)

/-- Modelled from the spec: Origin path-attribute values (src/path_attribute.rs
is not among the sources). -/
inductive Origin where
  | Igp
  | Egp
  | Incomplete
deriving DecidableEq, Repr

/-- Modelled from the spec: AS_PATH, a segment of ASNs that is either an
AS_SEQUENCE or an AS_SET (src/path_attribute.rs is not among the sources; the
code in src/routing.rs constructs AsPath::AsSequence(vec![])). -/
inductive AsPath where
  | AsSequence (asns : List Nat)
  | AsSet (asns : List Nat)
deriving DecidableEq, Repr

/-- Modelled from the spec: AsPath::does_contain, membership of an ASN in the
segment's ASN list. -/
def AsPath.does_contain (ap : AsPath) (asn : Nat) : Bool :=
  match ap with
  | .AsSequence l => l.contains asn
  | .AsSet l => l.contains asn

/-- Modelled from the spec: the path-attribute tagged variant with the three
required kinds Origin, AsPath, NextHop. -/
inductive PathAttribute where
  | Origin (o : Origin)
  | AsPath (ap : AsPath)
  | NextHop (ip : Ipv4Addr)
deriving DecidableEq, Repr

/-- Discriminator for the AsPath alternative of PathAttribute. -/
def PathAttribute.isAsPath : PathAttribute → Bool
  | .AsPath _ => true
  | _ => false

/-- RibEntry from src/routing.rs: network address plus the (shared, immutable)
path-attribute list, compared structurally. -/
structure RibEntry where
  network_address : Ipv4Network
  path_attributes : List PathAttribute
deriving DecidableEq, Repr

/-- RibEntryStatus from src/routing.rs. -/
inductive RibEntryStatus where
  | New
  | UnChanged
deriving DecidableEq, Repr

/-- Rib from src/routing.rs: a HashMap from entry to status, modelled as an
association list with unique keys (insertion order fixed for determinism). -/
structure Rib where
  entries : List (RibEntry × RibEntryStatus)
deriving DecidableEq, Repr

/-- Rib::new. -/
def Rib.new : Rib := ⟨[]⟩

/-- Rib::insert (src/routing.rs lines 53-55): HashMap entry(..).or_insert(New),
a no-op when the key is present, otherwise the entry is recorded with status
New. -/
def Rib.insert (r : Rib) (e : RibEntry) : Rib :=
  if r.entries.any (fun pr => pr.1 == e) then r else ⟨r.entries ++ [(e, .New)]⟩

/-- Rib::routes (src/routing.rs lines 57-59): the keys of the map. -/
def Rib.routes (r : Rib) : List RibEntry := r.entries.map Prod.fst

/-- Loop body of RibEntry::does_contain_as: scan the attribute list and return
the membership test of the FIRST AsPath attribute encountered. -/
def RibEntry.doesContainAsGo (asn : Nat) : List PathAttribute → Bool
  | [] => false
  | .AsPath ap :: _ => ap.does_contain asn
  | _ :: rest => RibEntry.doesContainAsGo asn rest

/-- RibEntry::does_contain_as (src/routing.rs lines 171-180). -/
def RibEntry.does_contain_as (e : RibEntry) (asn : Nat) : Bool :=
  RibEntry.doesContainAsGo asn e.path_attributes

/-- Modelled from the spec: connection-establishment mode (src/config.rs is not
among the sources). -/
inductive Mode where
  | Active
  | Passive
deriving DecidableEq, Repr

/-- Modelled from the spec: the per-peer configuration, one line of
local_as local_ip remote_as remote_ip mode [network ...] (src/config.rs is not
among the sources). -/
structure Config where
  local_as : Nat
  local_ip : Ipv4Addr
  remote_as : Nat
  remote_ip : Ipv4Addr
  mode : Mode
  networks : List Ipv4Network
deriving DecidableEq, Repr

/-- LocRib from src/routing.rs: a Rib plus the local ASN. The kernel
routing-table lookup of LocRib::new is external I/O; theorems quantify over
arbitrary Loc-RIB contents instead. -/
structure LocRib where
  rib : Rib
  local_as_number : Nat
deriving DecidableEq, Repr

/-- LocRib routes, via the Deref to Rib. -/
def LocRib.routes (l : LocRib) : List RibEntry := l.rib.routes

/-- AdjRibOut from src/routing.rs. -/
structure AdjRibOut where
  rib : Rib
deriving DecidableEq, Repr

/-- AdjRibOut::new. -/
def AdjRibOut.new : AdjRibOut := ⟨Rib.new⟩

/-- AdjRibOut::install_from_loc_rib (src/routing.rs lines 69-74): insert every
Loc-RIB route whose AS_PATH does not contain the peer's remote ASN. -/
def AdjRibOut.install_from_loc_rib (aro : AdjRibOut) (loc : LocRib) (cfg : Config) :
    AdjRibOut :=
  ⟨(loc.routes.filter (fun e => !(e.does_contain_as cfg.remote_as))).foldl
    Rib.insert aro.rib⟩

/-- C10: a RibEntry whose path-attribute list holds no AsPath attribute is
never flagged by does_contain_as (so the Adj-RIB-Out loop-avoidance filter
keeps it), and does_contain_as consults only the first AsPath attribute,
ignoring any later AsPath attributes in the list. -/
theorem does_contain_as_first_aspath_only :
    (∀ (e : RibEntry) (asn : Nat),
      (∀ a ∈ e.path_attributes, a.isAsPath = false) →
      e.does_contain_as asn = false) ∧
    (∀ (net : Ipv4Network) (pre post : List PathAttribute) (ap : AsPath) (asn : Nat),
      (∀ a ∈ pre, a.isAsPath = false) →
      RibEntry.does_contain_as ⟨net, pre ++ PathAttribute.AsPath ap :: post⟩ asn =
        ap.does_contain asn) := by
  have hgo : ∀ (asn : Nat) (l : List PathAttribute),
      (∀ a ∈ l, a.isAsPath = false) → RibEntry.doesContainAsGo asn l = false := by
    intro asn l hl
    induction l with
    | nil => rfl
    | cons a rest ih =>
      cases a with
      | Origin o => exact ih (fun x hx => hl x (List.mem_cons_of_mem _ hx))
      | AsPath ap => exact absurd (hl _ (List.mem_cons_self _ _)) (by simp [PathAttribute.isAsPath])
      | NextHop ip => exact ih (fun x hx => hl x (List.mem_cons_of_mem _ hx))
  constructor
  · intro e asn he
    exact hgo asn e.path_attributes he
  · intro net pre post ap asn hpre
    unfold RibEntry.does_contain_as
    induction pre with
    | nil => rfl
    | cons a rest ih =>
      cases a with
      | Origin o =>
        exact ih (fun x hx => hpre x (List.mem_cons_of_mem _ hx))
      | AsPath ap2 =>
        exact absurd (hpre _ (List.mem_cons_self _ _)) (by simp [PathAttribute.isAsPath])
      | NextHop ip =>
        exact ih (fun x hx => hpre x (List.mem_cons_of_mem _ hx))

/-- Witness for C10: an entry with Origin and NextHop only is not flagged;
an entry with two AsPath attributes answers from the first one (the second
AsPath contains 9, yet the result is the first segment's answer). -/
theorem does_contain_as_first_aspath_only_witness :
    RibEntry.does_contain_as
      ⟨⟨⟨10, 0, 0, 0⟩, 8⟩, [.Origin .Igp, .NextHop ⟨1, 2, 3, 4⟩]⟩ 64512 = false ∧
    RibEntry.does_contain_as
      ⟨⟨⟨10, 0, 0, 0⟩, 8⟩,
        [.Origin .Igp, .AsPath (.AsSequence [64512]), .AsPath (.AsSequence [9])]⟩ 9 =
      (AsPath.AsSequence [64512]).does_contain 9 :=
  ⟨does_contain_as_first_aspath_only.1 _ 64512 (by decide),
   does_contain_as_first_aspath_only.2 ⟨⟨10, 0, 0, 0⟩, 8⟩ [.Origin .Igp]
     [.AsPath (.AsSequence [9])] (.AsSequence [64512]) 9 (by decide)⟩

/-- Modelled from the spec: the error kinds of section 7 used by the codec and
the connection (src/error.rs is not among the sources). -/
inductive BgpError where
  | MalformedHeader
  | MalformedNlri
  | MalformedUpdate
  | MalformedOpen
  | SendFailed
  | ReceiveFailed
deriving DecidableEq, Repr

/-- Modelled from the spec: the message-type alternatives of the common header
(src/packets/header.rs is not among the sources). The exhaustive match in
src/packets/message.rs lines 34-38 covers exactly Open, Keepalive and Update,
so the enum has exactly these alternatives; NOTIFICATION has no representation
in this core's Message type and its type code is rejected at the header. -/
inductive MessageType where
  | Open
  | Update
  | Keepalive
deriving DecidableEq, Repr

/-- Modelled from the spec: the decoded common header fields this core uses. -/
structure Header where
  length : Nat
  type_ : MessageType
deriving DecidableEq, Repr

/-- Big-endian two-byte encoding of a 16-bit value. -/
def be16 (n : Nat) : List Nat := [n / 256 % 256, n % 256]

/-- Modelled from the spec: Header::try_from (src/packets/header.rs is not
among the sources): a 16-byte all-ones marker, a big-endian length in
19..=4096 and a known type code; anything else is MalformedHeader. -/
def Header.tryFrom (bytes : List Nat) : Except BgpError Header :=
  if bytes.length < 19 then .error .MalformedHeader
  else if !((bytes.take 16).all (fun b => b == 255)) then .error .MalformedHeader
  else
    let len := 256 * bytes.getD 16 0 + bytes.getD 17 0
    if len < 19 ∨ 4096 < len then .error .MalformedHeader
    else
      match bytes.getD 18 0 with
      | 1 => .ok ⟨len, .Open⟩
      | 2 => .ok ⟨len, .Update⟩
      | 4 => .ok ⟨len, .Keepalive⟩
      | _ => .error .MalformedHeader

/-- Modelled from the spec: common-header encoding, 16 bytes of 0xff, the
big-endian total length and the type code. -/
def Header.encode (h : Header) : List Nat :=
  List.replicate 16 255 ++ be16 h.length ++
    [match h.type_ with | .Open => 1 | .Update => 2 | .Keepalive => 4]

/-- Modelled from the spec: KEEPALIVE carries no fields beyond the header. -/
structure KeepaliveMessage where
deriving DecidableEq, Repr

/-- KeepaliveMessage::new. -/
def KeepaliveMessage.new : KeepaliveMessage := ⟨⟩

/-- Modelled from the spec: KEEPALIVE is header-only with length 19. -/
def KeepaliveMessage.encode (_m : KeepaliveMessage) : List Nat :=
  Header.encode ⟨19, .Keepalive⟩

/-- Modelled from the spec: KEEPALIVE decode accepts exactly a 19-byte
message. -/
def KeepaliveMessage.tryFrom (bytes : List Nat) : Except BgpError KeepaliveMessage :=
  if bytes.length = 19 then .ok ⟨⟩ else .error .MalformedHeader

/-- Modelled from the spec: OPEN body fields (src/packets/open.rs is not among
the sources): version, my_as, hold_time, bgp_identifier; this core emits
opt_param_len = 0 and skips received optional parameters. -/
structure OpenMessage where
  version : Nat
  my_as : Nat
  hold_time : Nat
  bgp_identifier : Ipv4Addr
deriving DecidableEq, Repr

/-- Modelled from the spec: OpenMessage::new(my_as, my_ip); version is 4 per
section 4.2. The emitted hold-time value is not fixed by the spec, so 0 is
used; no claim depends on it. -/
def OpenMessage.new (my_as : Nat) (my_ip : Ipv4Addr) : OpenMessage :=
  ⟨4, my_as, 0, my_ip⟩

/-- Modelled from the spec: OPEN encoding after the 19-byte header: version(1),
my_as(2), hold_time(2), bgp_identifier(4), opt_param_len(1) = 0; total length
29. -/
def OpenMessage.encode (m : OpenMessage) : List Nat :=
  Header.encode ⟨29, .Open⟩ ++ [m.version] ++ be16 m.my_as ++ be16 m.hold_time ++
    [m.bgp_identifier.o1, m.bgp_identifier.o2, m.bgp_identifier.o3,
     m.bgp_identifier.o4] ++ [0]

/-- Modelled from the spec: OPEN decode; requires the full fixed-size body and
skips any optional parameters; shorter input is MalformedOpen. -/
def OpenMessage.tryFrom (bytes : List Nat) : Except BgpError OpenMessage :=
  if bytes.length < 29 then .error .MalformedOpen
  else
    .ok ⟨bytes.getD 19 0,
         256 * bytes.getD 20 0 + bytes.getD 21 0,
         256 * bytes.getD 22 0 + bytes.getD 23 0,
         ⟨bytes.getD 24 0, bytes.getD 25 0, bytes.getD 26 0, bytes.getD 27 0⟩⟩

/-- Modelled from the spec: UPDATE content (src/packets/update.rs is not among
the sources): withdrawn routes, path attributes, NLRI. -/
structure UpdateMessage where
  withdrawn_routes : List Ipv4Network
  path_attributes : List PathAttribute
  nlri : List Ipv4Network
deriving DecidableEq, Repr

/-- Modelled from the spec: the AS_PATH attribute value, one
(segment_type, segment_length_in_asns, asns) triple; AS_SET has segment type 1
and AS_SEQUENCE segment type 2. -/
def AsPath.encodeValue (ap : AsPath) : List Nat :=
  match ap with
  | .AsSet l => 1 :: l.length :: l.flatMap be16
  | .AsSequence l => 2 :: l.length :: l.flatMap be16

/-- Modelled from the spec: path-attribute encoding
flags(1) | type(1) | length(1) | value; this core emits the three well-known
attributes with flags byte 0x40 and type codes 1 Origin, 2 AS_PATH,
3 NEXT_HOP (RFC 4271, referenced by section 6). -/
def PathAttribute.encode (a : PathAttribute) : List Nat :=
  match a with
  | .Origin o => [64, 1, 1, match o with | .Igp => 0 | .Egp => 1 | .Incomplete => 2]
  | .AsPath ap => 64 :: 2 :: ap.encodeValue.length :: ap.encodeValue
  | .NextHop ip => [64, 3, 4, ip.o1, ip.o2, ip.o3, ip.o4]

/-- NLRI byte run of a network list; the panic alternative of the per-network
encoder cannot occur for networks built by the core (prefix is at most 32) and
is collapsed to []. -/
def encodeNlriList (l : List Ipv4Network) : List Nat :=
  l.flatMap (fun n => (Ipv4Network.encode n).getD [])

/-- Modelled from the spec: UPDATE encoding: header, withdrawn_routes_length(2),
withdrawn routes, total_path_attribute_length(2), attributes, NLRI. -/
def UpdateMessage.encode (m : UpdateMessage) : List Nat :=
  let withdrawn := encodeNlriList m.withdrawn_routes
  let attrs := m.path_attributes.flatMap PathAttribute.encode
  let nlri := encodeNlriList m.nlri
  let body := be16 withdrawn.length ++ withdrawn ++ be16 attrs.length ++ attrs ++ nlri
  Header.encode ⟨19 + body.length, .Update⟩ ++ body

/-- Big-endian reassembly of two-byte ASNs from a byte run. -/
def decodeAsns : List Nat → List Nat
  | a :: b :: rest => (256 * a + b) :: decodeAsns rest
  | _ => []

/-- Modelled from the spec: decode of one path attribute
(flags | type | length (1 or 2 bytes by the extended-length flag 0x10) |
value), returning the attribute (none for an unrecognised type code, which is
skipped) and the bytes that follow; truncated input is MalformedUpdate. -/
def decodePathAttr (bytes : List Nat) : Except BgpError (Option PathAttribute × List Nat) :=
  match bytes with
  | flags :: ty :: rest =>
    let lenAndRest : Option (Nat × List Nat) :=
      if flags / 16 % 2 = 1 then
        match rest with
        | l1 :: l2 :: r => some (256 * l1 + l2, r)
        | _ => none
      else
        match rest with
        | l1 :: r => some (l1, r)
        | _ => none
    match lenAndRest with
    | none => .error .MalformedUpdate
    | some (len, r) =>
      if r.length < len then .error .MalformedUpdate
      else
        let v := r.take len
        let rem := r.drop len
        match ty with
        | 1 =>
          match v with
          | [0] => .ok (some (.Origin .Igp), rem)
          | [1] => .ok (some (.Origin .Egp), rem)
          | [2] => .ok (some (.Origin .Incomplete), rem)
          | _ => .error .MalformedUpdate
        | 2 =>
          match v with
          | [] => .ok (some (.AsPath (.AsSequence [])), rem)
          | 1 :: n :: asns =>
            if asns.length = 2 * n then .ok (some (.AsPath (.AsSet (decodeAsns asns))), rem)
            else .error .MalformedUpdate
          | 2 :: n :: asns =>
            if asns.length = 2 * n then
              .ok (some (.AsPath (.AsSequence (decodeAsns asns))), rem)
            else .error .MalformedUpdate
          | _ => .error .MalformedUpdate
        | 3 =>
          match v with
          | [a, b, c, d] => .ok (some (.NextHop ⟨a, b, c, d⟩), rem)
          | _ => .error .MalformedUpdate
        | _ => .ok (none, rem)
  | _ => .error .MalformedUpdate

/-- Modelled from the spec: decode a run of path attributes to the end of the
run; fuel is the byte count, sufficient because every attribute consumes at
least one byte. -/
def decodePathAttrsGo : Nat → List Nat → Except BgpError (List PathAttribute)
  | _, [] => .ok []
  | 0, _ :: _ => .error .MalformedUpdate
  | fuel + 1, b :: bs =>
    match decodePathAttr (b :: bs) with
    | .error e => .error e
    | .ok (oa, rem) =>
      match decodePathAttrsGo fuel rem with
      | .error e => .error e
      | .ok l => .ok (match oa with | some a => a :: l | none => l)

/-- Attribute-run decoding at its natural fuel. -/
def decodePathAttrs (bytes : List Nat) : Except BgpError (List PathAttribute) :=
  decodePathAttrsGo bytes.length bytes

/-- All three mandatory well-known attributes are present. -/
def hasMandatoryAttrs (attrs : List PathAttribute) : Bool :=
  attrs.any (fun a => match a with | .Origin _ => true | _ => false) &&
  attrs.any PathAttribute.isAsPath &&
  attrs.any (fun a => match a with | .NextHop _ => true | _ => false)

/-- Modelled from the spec: UPDATE decode (src/packets/update.rs is not among
the sources): withdrawn_routes_length(2), withdrawn routes,
total_path_attribute_length(2), attributes, NLRI to the end of the message;
bad lengths, NLRI or attribute failures, or missing mandatory attributes with
non-empty NLRI are MalformedUpdate. -/
def UpdateMessage.tryFrom (bytes : List Nat) : Except BgpError UpdateMessage :=
  match bytes.drop 19 with
  | wl1 :: wl2 :: rest =>
    let wlen := 256 * wl1 + wl2
    if rest.length < wlen then .error .MalformedUpdate
    else
      match Ipv4Network.from_u8_slice (rest.take wlen) with
      | .ok withdrawn =>
        match rest.drop wlen with
        | al1 :: al2 :: rest3 =>
          let alen := 256 * al1 + al2
          if rest3.length < alen then .error .MalformedUpdate
          else
            match decodePathAttrs (rest3.take alen) with
            | .error e => .error e
            | .ok attrs =>
              match Ipv4Network.from_u8_slice (rest3.drop alen) with
              | .ok nlri =>
                if nlri.isEmpty || hasMandatoryAttrs attrs then
                  .ok ⟨withdrawn, attrs, nlri⟩
                else .error .MalformedUpdate
              | _ => .error .MalformedUpdate
        | _ => .error .MalformedUpdate
      | _ => .error .MalformedUpdate
  | _ => .error .MalformedUpdate

/-- Message from src/packets/message.rs lines 12-17. -/
inductive Message where
  | Open (m : OpenMessage)
  | Keepalive (m : KeepaliveMessage)
  | Update (m : UpdateMessage)
deriving DecidableEq, Repr

/-- TryFrom of BytesMut for Message (src/packets/message.rs lines 19-40):
reject buffers shorter than 19 bytes, parse the header from the first 19
bytes, then dispatch on the message type. -/
def Message.tryFrom (bytes : List Nat) : Except BgpError Message :=
  if bytes.length < 19 then .error .MalformedHeader
  else
    match Header.tryFrom (bytes.take 19) with
    | .error e => .error e
    | .ok h =>
      match h.type_ with
      | .Open => (OpenMessage.tryFrom bytes).map Message.Open
      | .Keepalive => (KeepaliveMessage.tryFrom bytes).map Message.Keepalive
      | .Update => (UpdateMessage.tryFrom bytes).map Message.Update

/-- From of Message for BytesMut (src/packets/message.rs lines 42-50). -/
def Message.encode : Message → List Nat
  | .Open m => m.encode
  | .Keepalive m => m.encode
  | .Update m => m.encode

/-- Message::new_open (src/packets/message.rs lines 53-55). -/
def Message.new_open (my_as : Nat) (my_ip : Ipv4Addr) : Message :=
  .Open (OpenMessage.new my_as my_ip)

/-- Message::new_keepalive (src/packets/message.rs lines 57-59). -/
def Message.new_keepalive : Message :=
  .Keepalive KeepaliveMessage.new

/-- Event from src/event.rs lines 3-14, constructors in source order. Note the
alternative LocRib and the absence of AdjRibInChanged: src/peer.rs lines 145
and 149 nevertheless reference Event::AdjRibInChanged, so the crate cannot
compile against this enum as given. -/
inductive Event where
  | ManualStart
  | TcpConnectionConfirmed
  | BgpOpen (m : OpenMessage)
  | KeepAliveMsg (m : KeepaliveMessage)
  | UpdateMsg (m : UpdateMessage)
  | Established
  | LocRib
  | LocRibChanged
  | AdjRibOutChanged
deriving DecidableEq, Repr

/-- Constructor names of Event as declared in src/event.rs, in source order. -/
def eventAlternatives : List String :=
  ["ManualStart", "TcpConnectionConfirmed", "BgpOpen", "KeepAliveMsg",
   "UpdateMsg", "Established", "LocRib", "LocRibChanged", "AdjRibOutChanged"]

/-- The nine alternatives the claim (and the spec's data model) list for
Event. -/
def specEventAlternatives : List String :=
  ["ManualStart", "TcpConnectionConfirmed", "BgpOpen", "KeepAliveMsg",
   "UpdateMsg", "Established", "LocRibChanged", "AdjRibInChanged",
   "AdjRibOutChanged"]

/-- The Event constructor names referenced by src/peer.rs (handle_message and
handle_event), including Event::AdjRibInChanged at src/peer.rs lines 145 and
149. -/
def peerReferencedEventAlternatives : List String :=
  ["ManualStart", "TcpConnectionConfirmed", "BgpOpen", "KeepAliveMsg",
   "UpdateMsg", "Established", "LocRibChanged", "AdjRibOutChanged",
   "AdjRibInChanged"]

/-- C9: the Event enum of src/event.rs does NOT consist of the nine claimed
alternatives: it lacks AdjRibInChanged and instead declares LocRib, even
though src/peer.rs references Event::AdjRibInChanged, which the claimed list
contains. -/
theorem event_alternatives_mismatch :
    eventAlternatives ≠ specEventAlternatives ∧
    "AdjRibInChanged" ∉ eventAlternatives ∧
    "LocRib" ∈ eventAlternatives ∧
    "AdjRibInChanged" ∈ specEventAlternatives ∧
    "AdjRibInChanged" ∈ peerReferencedEventAlternatives ∧
    eventAlternatives.length = 9 := by
  refine ⟨by decide, by decide, by decide, by decide, by decide, by decide⟩

/-- Connection::get_index_of_message_separator (src/connection.rs lines 63-73):
an error when fewer than 19 bytes are buffered, otherwise the big-endian u16
at buffer offsets 16-17. -/
def Connection.get_index_of_message_separator (buf : List Nat) : Except Unit Nat :=
  if buf.length < 19 then .error ()
  else .ok (256 * buf.getD 16 0 + buf.getD 17 0)

/-- Connection::split_buffer_at_message_separator (src/connection.rs lines
55-61): None when no separator is known or fewer bytes than the announced
message length are buffered; otherwise split off the message bytes
(BytesMut::split_to). -/
def Connection.split_buffer_at_message_separator (buf : List Nat) :
    Option (List Nat × List Nat) :=
  match Connection.get_index_of_message_separator buf with
  | .error _ => none
  | .ok i => if buf.length < i then none else some (buf.take i, buf.drop i)

/-- Connection::get_message (src/connection.rs lines 33-37), after the TCP read
(external I/O, not modelled; buf is the buffer content after reading): split
the buffer at the message separator and decode the split-off bytes, discarding
any decode error via Result::ok(); the pair is the outcome handed to the
caller and the buffer content that remains. -/
def Connection.get_message (buf : List Nat) : Option Message × List Nat :=
  match Connection.split_buffer_at_message_separator buf with
  | none => (none, buf)
  | some (msg, rest) => ((Message.tryFrom msg).toOption, rest)

/-- A 19-byte buffer whose marker bytes are zero and whose length field is 19:
the framing layer extracts it whole, and decode rejects it. -/
def badMarkerBuffer : List Nat := List.replicate 16 0 ++ [0, 19, 4]

/-- C2 counterexample: on badMarkerBuffer the extracted bytes fail to decode,
yet get_message returns none with the 19 bytes consumed - observably identical
to the need-more-data outcome on an empty buffer; no decode error reaches the
caller and nothing terminates the session. -/
theorem get_message_swallows_decode_error :
    Message.tryFrom badMarkerBuffer = .error .MalformedHeader ∧
    Connection.get_message badMarkerBuffer = (none, []) ∧
    Connection.get_message [] = (none, []) := by
  refine ⟨rfl, by decide, by decide⟩

/-- C2 (amended): get_message returns either a decoded message or none. When
the buffer holds no complete message, none is returned with the buffer intact
(need more data); when the extracted bytes fail to decode, the error is
discarded by .ok() and none is returned with the message bytes already
consumed, so a decode failure is not surfaced and does not terminate the
session. -/
theorem get_message_amended :
    (∀ buf, Connection.split_buffer_at_message_separator buf = none →
      Connection.get_message buf = (none, buf)) ∧
    (∀ buf msg rest e,
      Connection.split_buffer_at_message_separator buf = some (msg, rest) →
      Message.tryFrom msg = .error e →
      Connection.get_message buf = (none, rest)) := by
  constructor
  · intro buf h
    unfold Connection.get_message
    rw [h]
  · intro buf msg rest e hs hd
    unfold Connection.get_message
    rw [hs]
    show ((Message.tryFrom msg).toOption, rest) = (none, rest)
    rw [hd]
    rfl

/-- Witness for C2 (amended) at badMarkerBuffer and at a short buffer. -/
theorem get_message_amended_witness :
    Connection.get_message badMarkerBuffer = (none, []) ∧
    Connection.get_message [255] = (none, [255]) :=
  ⟨get_message_amended.2 badMarkerBuffer badMarkerBuffer [] .MalformedHeader
     (by decide) rfl,
   get_message_amended.1 [255] (by decide)⟩

/-- Outcome of the underlying write_all invocation. -/
inductive IoResult where
  | ok
  | ioError
deriving DecidableEq, Repr

/-- Observable effect of Connection::send: the byte sequences handed to
write_all, in order, and the error surfaced to the caller, if any. -/
structure SendEffect where
  writes : List (List Nat)
  surfaced : Option BgpError
deriving DecidableEq, Repr

/-- Connection::send (src/connection.rs lines 28-31): encodes the message,
performs a single write_all invocation with the encoded bytes, and binds the
I/O result to the unused variable a, so the outcome of the write never reaches
the caller. -/
def Connection.send (m : Message) (_io : IoResult) : SendEffect :=
  { writes := [m.encode], surfaced := none }

/-- C5 counterexample: when the underlying write fails, Connection::send still
surfaces nothing - no SendFailed error reaches the caller, contrary to the
claim. -/
theorem send_discards_io_error :
    (Connection.send Message.new_keepalive IoResult.ioError).surfaced ≠
      some BgpError.SendFailed ∧
    (Connection.send Message.new_keepalive IoResult.ioError).surfaced = none := by
  refine ⟨by decide, by decide⟩

/-- C5 (amended): for every message and every I/O outcome, send performs
exactly one write_all invocation carrying the encoded bytes of the message,
and discards the I/O result (let a = ...), surfacing no error - in particular
no SendFailed on write failure. -/
theorem send_amended (m : Message) (io : IoResult) :
    (Connection.send m io).writes = [m.encode] ∧
    (Connection.send m io).surfaced = none :=
  ⟨rfl, rfl⟩

/-- Modelled from the spec: the session states (src/state.rs is not among the
sources); this core uses five of them, Active is reserved and never entered
(the outer catch-all of handle_event ignores every event in it). -/
inductive State where
  | Idle
  | Connect
  | Active
  | OpenSent
  | OpenConfirm
  | Established
deriving DecidableEq, Repr

/-- The event alternatives src/peer.rs dispatches on: the Event type peer.rs
is written against, including AdjRibInChanged (see
event_alternatives_mismatch for the discrepancy with src/event.rs). -/
inductive PeerEvent where
  | ManualStart
  | TcpConnectionConfirmed
  | BgpOpen (m : OpenMessage)
  | KeepAliveMsg (m : KeepaliveMessage)
  | UpdateMsg (m : UpdateMessage)
  | Established
  | LocRibChanged
  | AdjRibInChanged
  | AdjRibOutChanged
deriving DecidableEq, Repr

/-- Modelled from the spec: Rib::update_to_all_changed - every New entry
becomes UnChanged (the operation is not in src/routing.rs as given; section 3
of the spec defines it). -/
def Rib.update_to_all_changed (r : Rib) : Rib :=
  ⟨r.entries.map (fun pr => (pr.1, RibEntryStatus.UnChanged))⟩

/-- Modelled from the spec: whether any entry currently has status New (name
as used by src/peer.rs). -/
def Rib.does_contain_new_route (r : Rib) : Bool :=
  r.entries.any (fun pr => pr.2 == RibEntryStatus.New)

/-- AdjRibIn, the per-peer inbound table; not present in src/routing.rs as
given, modelled from the spec. -/
structure AdjRibIn where
  rib : Rib
deriving DecidableEq, Repr

/-- AdjRibIn::new. -/
def AdjRibIn.new : AdjRibIn := ⟨Rib.new⟩

/-- Modelled from the spec: AdjRibIn::install_from_update - for each NLRI of
the UPDATE, install an entry carrying the UPDATE's path attributes; entries
whose AS_PATH contains the local ASN are rejected (loop avoidance, spec
section 4.5). -/
def AdjRibIn.install_from_update (ari : AdjRibIn) (u : UpdateMessage)
    (cfg : Config) : AdjRibIn :=
  ⟨((u.nlri.map (fun n => RibEntry.mk n u.path_attributes)).filter
      (fun e => !(e.does_contain_as cfg.local_as))).foldl Rib.insert ari.rib⟩

/-- Modelled from the spec: LocRib::intsall_from_adj_rib_in (spelling as
referenced by src/peer.rs line 153) - copy all Adj-RIB-In entries into the
Loc-RIB. -/
def LocRib.intsall_from_adj_rib_in (lr : LocRib) (ari : AdjRibIn) : LocRib :=
  ⟨ari.rib.routes.foldl Rib.insert lr.rib, lr.local_as_number⟩

/-- Modelled from the spec: prepend the local AS to the AS_PATH attribute. -/
def prependLocalAs (local_as : Nat) : PathAttribute → PathAttribute
  | .AsPath (.AsSequence l) => .AsPath (.AsSequence (local_as :: l))
  | .AsPath (.AsSet l) => .AsPath (.AsSet (local_as :: l))
  | a => a

/-- Modelled from the spec: replace the NextHop attribute by the local IP. -/
def setNextHop (ip : Ipv4Addr) : PathAttribute → PathAttribute
  | .NextHop _ => .NextHop ip
  | a => a

/-- Modelled from the spec: AdjRibOut::create_update_messages - one UPDATE per
route currently in the table, carrying the route's attributes with AS_PATH
prepended with the local AS and NextHop set to the local IP. -/
def AdjRibOut.create_update_messages (aro : AdjRibOut) (local_ip : Ipv4Addr)
    (local_as : Nat) : List UpdateMessage :=
  aro.rib.routes.map (fun e =>
    ⟨[], (e.path_attributes.map (prependLocalAs local_as)).map (setNextHop local_ip),
     [e.network_address]⟩)

/-- The peer, src/peer.rs lines 14-23: FSM state, FIFO event queue (modelled
from the spec, src/event_queue.rs is not among the sources: enqueue appends at
the back, dequeue pops the front), connection presence, and the two Adj-RIBs.
The shared Loc-RIB is passed per step instead of stored, since other peers
mutate it between steps; the configuration is immutable and passed as a
parameter. -/
structure PeerS where
  state : State
  event_queue : List PeerEvent
  tcp_connection : Bool
  adj_rib_out : AdjRibOut
  adj_rib_in : AdjRibIn
deriving DecidableEq, Repr

/-- Peer::new (src/peer.rs lines 26-40): Idle, empty queue, no connection,
empty Adj-RIBs. -/
def PeerS.new : PeerS :=
  ⟨.Idle, [], false, AdjRibOut.new, AdjRibIn.new⟩

/-- Peer::start (src/peer.rs lines 42-45): enqueue ManualStart. -/
def PeerS.start (p : PeerS) : PeerS :=
  { p with event_queue := p.event_queue ++ [.ManualStart] }

/-- Peer::handle_message (src/peer.rs lines 62-70): wrap the decoded message
in its event and enqueue it. -/
def PeerS.handle_message (p : PeerS) (m : Message) : PeerS :=
  match m with
  | .Open o => { p with event_queue := p.event_queue ++ [.BgpOpen o] }
  | .Keepalive k => { p with event_queue := p.event_queue ++ [.KeepAliveMsg k] }
  | .Update u => { p with event_queue := p.event_queue ++ [.UpdateMsg u] }

/-- The Established | LocRibChanged arm (src/peer.rs lines 120-128): rebuild
Adj-RIB-Out from the Loc-RIB; if it then holds New routes, enqueue
AdjRibOutChanged and mark all its routes UnChanged. -/
def PeerS.handleLocRibChange (cfg : Config) (lr : LocRib) (p : PeerS) :
    Option (PeerS × LocRib) :=
  let aro := p.adj_rib_out.install_from_loc_rib lr cfg
  if aro.rib.does_contain_new_route then
    some ({ p with adj_rib_out := ⟨aro.rib.update_to_all_changed⟩,
                   event_queue := p.event_queue ++ [.AdjRibOutChanged] }, lr)
  else
    some ({ p with adj_rib_out := aro }, lr)

/-- The Established/AdjRibOutChanged arm (src/peer.rs lines 129-140): send one
UPDATE per Adj-RIB-Out route (sends are I/O and change no modelled field); the
per-iteration .expect panics when no connection exists and at least one UPDATE
is due. -/
def PeerS.handleAdjRibOutChanged (cfg : Config) (lr : LocRib) (p : PeerS) :
    Option (PeerS × LocRib) :=
  let updates := p.adj_rib_out.create_update_messages cfg.local_ip cfg.local_as
  if updates.isEmpty then some (p, lr)
  else if p.tcp_connection then some (p, lr) else none

/-- The Established/UpdateMsg arm (src/peer.rs lines 141-148): install the
UPDATE into Adj-RIB-In; if it then holds New routes, enqueue AdjRibInChanged
and mark all its routes UnChanged. -/
def PeerS.handleUpdateMsg (cfg : Config) (lr : LocRib) (p : PeerS)
    (u : UpdateMessage) : Option (PeerS × LocRib) :=
  let ari := p.adj_rib_in.install_from_update u cfg
  if ari.rib.does_contain_new_route then
    some ({ p with adj_rib_in := ⟨ari.rib.update_to_all_changed⟩,
                   event_queue := p.event_queue ++ [.AdjRibInChanged] }, lr)
  else
    some ({ p with adj_rib_in := ari }, lr)

/-- The Established/AdjRibInChanged arm (src/peer.rs lines 149-163): copy
Adj-RIB-In into the shared Loc-RIB; if it then holds New routes, write them to
the kernel table (external I/O, no modelled effect), enqueue LocRibChanged and
mark the Loc-RIB routes UnChanged. -/
def PeerS.handleAdjRibInChanged (lr : LocRib) (p : PeerS) :
    Option (PeerS × LocRib) :=
  let lr1 := lr.intsall_from_adj_rib_in p.adj_rib_in
  if lr1.rib.does_contain_new_route then
    some ({ p with event_queue := p.event_queue ++ [.LocRibChanged] },
          ⟨lr1.rib.update_to_all_changed, lr1.local_as_number⟩)
  else
    some (p, lr1)

/-- Peer::handle_event (src/peer.rs lines 73-168). connOk is the outcome of
Connection::connect (consulted by the Idle/ManualStart arm only) and lr the
current shared Loc-RIB content. The none outcome models a panic (TCP
establishment failure, or an .expect on a missing connection), which drops the
peer; otherwise the updated peer and Loc-RIB are returned. Every (state,
event) pair without an arm of its own falls through to a catch-all doing
nothing. -/
def PeerS.handle_event (connOk : Bool) (cfg : Config) (lr : LocRib) (p : PeerS)
    (e : PeerEvent) : Option (PeerS × LocRib) :=
  match p.state, e with
  | .Idle, .ManualStart =>
    if connOk then
      some ({ p with tcp_connection := true,
                     event_queue := p.event_queue ++ [.TcpConnectionConfirmed],
                     state := .Connect }, lr)
    else none
  | .Connect, .TcpConnectionConfirmed =>
    if p.tcp_connection then some ({ p with state := .OpenSent }, lr) else none
  | .OpenSent, .BgpOpen _ =>
    if p.tcp_connection then some ({ p with state := .OpenConfirm }, lr) else none
  | .OpenConfirm, .KeepAliveMsg _ =>
    some ({ p with state := .Established,
                   event_queue := p.event_queue ++ [.Established] }, lr)
  | .Established, .Established => PeerS.handleLocRibChange cfg lr p
  | .Established, .LocRibChanged => PeerS.handleLocRibChange cfg lr p
  | .Established, .AdjRibOutChanged => PeerS.handleAdjRibOutChanged cfg lr p
  | .Established, .UpdateMsg u => PeerS.handleUpdateMsg cfg lr p u
  | .Established, .AdjRibInChanged => PeerS.handleAdjRibInChanged lr p
  | _, _ => some (p, lr)

/-- The (state, event) pairs for which src/peer.rs handle_event has an arm of
its own; every other pair is silently ignored. -/
def accepts : State → PeerEvent → Bool
  | .Idle, .ManualStart => true
  | .Connect, .TcpConnectionConfirmed => true
  | .OpenSent, .BgpOpen _ => true
  | .OpenConfirm, .KeepAliveMsg _ => true
  | .Established, .Established => true
  | .Established, .LocRibChanged => true
  | .Established, .AdjRibOutChanged => true
  | .Established, .UpdateMsg _ => true
  | .Established, .AdjRibInChanged => true
  | _, _ => false

/-- The ordering Idle < Connect < OpenSent < OpenConfirm < Established of the
claim; Active is reserved, behaves like Connect (spec section 3), and is never
entered. -/
def State.rank : State → Nat
  | .Idle => 0
  | .Connect => 1
  | .Active => 1
  | .OpenSent => 2
  | .OpenConfirm => 3
  | .Established => 4

/-- C6 (amended): every (state, event) pair outside the transition table is
silently ignored by handle_event - the peer (state, queue, RIBs) and the
Loc-RIB are returned unchanged and the session is NOT terminated. -/
theorem unhandled_event_ignored (connOk : Bool) (cfg : Config) (lr : LocRib)
    (p : PeerS) (e : PeerEvent) (h : accepts p.state e = false) :
    PeerS.handle_event connOk cfg lr p e = some (p, lr) := by
  obtain ⟨st, q, tc, aro, ari⟩ := p
  cases st <;> cases e <;> first
    | rfl
    | simp [accepts] at h

lemma handleLocRibChange_state (cfg : Config) (lr : LocRib) (p x : PeerS)
    (lr2 : LocRib) (h : PeerS.handleLocRibChange cfg lr p = some (x, lr2)) :
    x.state = p.state := by
  unfold PeerS.handleLocRibChange at h
  dsimp only at h
  split at h <;>
    (simp only [Option.some.injEq, Prod.mk.injEq] at h; obtain ⟨h1, -⟩ := h;
     subst h1; rfl)

lemma handleAdjRibOutChanged_state (cfg : Config) (lr : LocRib) (p x : PeerS)
    (lr2 : LocRib)
    (h : PeerS.handleAdjRibOutChanged cfg lr p = some (x, lr2)) :
    x.state = p.state := by
  unfold PeerS.handleAdjRibOutChanged at h
  dsimp only at h
  split at h
  · simp only [Option.some.injEq, Prod.mk.injEq] at h
    obtain ⟨h1, -⟩ := h
    subst h1
    rfl
  · split at h
    · simp only [Option.some.injEq, Prod.mk.injEq] at h
      obtain ⟨h1, -⟩ := h
      subst h1
      rfl
    · cases h

lemma handleUpdateMsg_state (cfg : Config) (lr : LocRib) (p : PeerS)
    (u : UpdateMessage) (x : PeerS) (lr2 : LocRib)
    (h : PeerS.handleUpdateMsg cfg lr p u = some (x, lr2)) :
    x.state = p.state := by
  unfold PeerS.handleUpdateMsg at h
  dsimp only at h
  split at h <;>
    (simp only [Option.some.injEq, Prod.mk.injEq] at h; obtain ⟨h1, -⟩ := h;
     subst h1; rfl)

lemma handleAdjRibInChanged_state (lr : LocRib) (p x : PeerS) (lr2 : LocRib)
    (h : PeerS.handleAdjRibInChanged lr p = some (x, lr2)) :
    x.state = p.state := by
  unfold PeerS.handleAdjRibInChanged at h
  dsimp only at h
  split at h <;>
    (simp only [Option.some.injEq, Prod.mk.injEq] at h; obtain ⟨h1, -⟩ := h;
     subst h1; rfl)

/-- C7: under Idle < Connect < OpenSent < OpenConfirm < Established (with the
reserved Active ranked with Connect), every handle_event invocation that does
not terminate the session (outcome some) leaves the state rank at least as
large as before; the FSM moves backwards only by dropping the peer (outcome
none, a panic). -/
theorem handle_event_monotone (connOk : Bool) (cfg : Config) (lr : LocRib)
    (p : PeerS) (e : PeerEvent) (p' : PeerS) (lr' : LocRib)
    (h : PeerS.handle_event connOk cfg lr p e = some (p', lr')) :
    p.state.rank ≤ p'.state.rank := by
  obtain ⟨st, q, tc, aro, ari⟩ := p
  cases st <;> cases e <;>
    simp only [PeerS.handle_event] at h <;>
    first
      | (have hs := handleLocRibChange_state _ _ _ _ _ h; rw [hs])
      | (have hs := handleAdjRibOutChanged_state _ _ _ _ _ h; rw [hs])
      | (have hs := handleUpdateMsg_state _ _ _ _ _ _ h; rw [hs])
      | (have hs := handleAdjRibInChanged_state _ _ _ _ h; rw [hs])
      | (split at h <;>
           first
             | (simp only [Option.some.injEq, Prod.mk.injEq] at h;
                obtain ⟨h1, -⟩ := h; subst h1; simp [State.rank])
             | (cases h))
      | (simp only [Option.some.injEq, Prod.mk.injEq] at h;
         obtain ⟨h1, -⟩ := h; subst h1; simp [State.rank])

/-- Every Adj-RIB-Out entry is free of the given ASN in its AS_PATH. -/
def AdjRibOut.noAsLoop (aro : AdjRibOut) (asn : Nat) : Bool :=
  aro.rib.entries.all (fun pr => !(pr.1.does_contain_as asn))

lemma insert_all (r : Rib) (e : RibEntry) (P : RibEntry → Bool)
    (hr : r.entries.all (fun pr => P pr.1) = true) (he : P e = true) :
    (r.insert e).entries.all (fun pr => P pr.1) = true := by
  unfold Rib.insert
  split
  · exact hr
  · simp only [List.all_append, hr, Bool.true_and]
    simp [he]

lemma foldl_insert_all (l : List RibEntry) (r : Rib) (P : RibEntry → Bool)
    (hr : r.entries.all (fun pr => P pr.1) = true)
    (hl : ∀ x ∈ l, P x = true) :
    ((l.foldl Rib.insert r).entries.all (fun pr => P pr.1)) = true := by
  induction l generalizing r with
  | nil => exact hr
  | cons a rest ih =>
    exact ih (r.insert a)
      (insert_all r a P hr (hl a (List.mem_cons_self a rest)))
      (fun x hx => hl x (List.mem_cons_of_mem a hx))

lemma update_to_all_changed_all (r : Rib) (P : RibEntry → Bool)
    (h : r.entries.all (fun pr => P pr.1) = true) :
    r.update_to_all_changed.entries.all (fun pr => P pr.1) = true := by
  unfold Rib.update_to_all_changed
  simpa [List.all_map, Function.comp] using h

lemma install_from_loc_rib_noAsLoop (aro : AdjRibOut) (lr : LocRib) (cfg : Config)
    (h : aro.noAsLoop cfg.remote_as = true) :
    (aro.install_from_loc_rib lr cfg).noAsLoop cfg.remote_as = true := by
  unfold AdjRibOut.install_from_loc_rib AdjRibOut.noAsLoop at *
  dsimp only
  refine foldl_insert_all _ _ (fun e => !(e.does_contain_as cfg.remote_as)) h ?_
  intro x hx
  rw [List.mem_filter] at hx
  simpa using hx.2

lemma handleLocRibChange_noAsLoop (cfg : Config) (lr : LocRib) (p x : PeerS)
    (lr2 : LocRib) (h : PeerS.handleLocRibChange cfg lr p = some (x, lr2))
    (hp : p.adj_rib_out.noAsLoop cfg.remote_as = true) :
    x.adj_rib_out.noAsLoop cfg.remote_as = true := by
  have hin := install_from_loc_rib_noAsLoop p.adj_rib_out lr cfg hp
  unfold PeerS.handleLocRibChange at h
  dsimp only at h
  split at h <;>
    (simp only [Option.some.injEq, Prod.mk.injEq] at h; obtain ⟨h1, -⟩ := h;
     subst h1)
  · unfold AdjRibOut.noAsLoop at hin ⊢
    dsimp only
    exact update_to_all_changed_all _ (fun e => !(e.does_contain_as cfg.remote_as)) hin
  · exact hin

lemma handleAdjRibOutChanged_aro (cfg : Config) (lr : LocRib) (p x : PeerS)
    (lr2 : LocRib)
    (h : PeerS.handleAdjRibOutChanged cfg lr p = some (x, lr2)) :
    x.adj_rib_out = p.adj_rib_out := by
  unfold PeerS.handleAdjRibOutChanged at h
  dsimp only at h
  split at h
  · simp only [Option.some.injEq, Prod.mk.injEq] at h
    obtain ⟨h1, -⟩ := h
    subst h1
    rfl
  · split at h
    · simp only [Option.some.injEq, Prod.mk.injEq] at h
      obtain ⟨h1, -⟩ := h
      subst h1
      rfl
    · cases h

lemma handleUpdateMsg_aro (cfg : Config) (lr : LocRib) (p : PeerS)
    (u : UpdateMessage) (x : PeerS) (lr2 : LocRib)
    (h : PeerS.handleUpdateMsg cfg lr p u = some (x, lr2)) :
    x.adj_rib_out = p.adj_rib_out := by
  unfold PeerS.handleUpdateMsg at h
  dsimp only at h
  split at h <;>
    (simp only [Option.some.injEq, Prod.mk.injEq] at h; obtain ⟨h1, -⟩ := h;
     subst h1; rfl)

lemma handleAdjRibInChanged_aro (lr : LocRib) (p x : PeerS) (lr2 : LocRib)
    (h : PeerS.handleAdjRibInChanged lr p = some (x, lr2)) :
    x.adj_rib_out = p.adj_rib_out := by
  unfold PeerS.handleAdjRibInChanged at h
  dsimp only at h
  split at h <;>
    (simp only [Option.some.injEq, Prod.mk.injEq] at h; obtain ⟨h1, -⟩ := h;
     subst h1; rfl)

/-- The reachable peer states: the freshly constructed peer, then any
interleaving of Peer::start, Peer::handle_message and non-panicking
Peer::handle_event steps, with arbitrary shared Loc-RIB contents and
connection outcomes at each step (other peers may change the Loc-RIB between
steps). -/
inductive Reachable (cfg : Config) : PeerS → Prop where
  | init : Reachable cfg PeerS.new
  | start {p : PeerS} : Reachable cfg p → Reachable cfg p.start
  | message {p : PeerS} (m : Message) : Reachable cfg p →
      Reachable cfg (p.handle_message m)
  | step {p p' : PeerS} (connOk : Bool) (lr lr' : LocRib) (e : PeerEvent) :
      Reachable cfg p → PeerS.handle_event connOk cfg lr p e = some (p', lr') →
      Reachable cfg p'

/-- C4: in every reachable state of a peer, its Adj-RIB-Out contains no entry
whose AS_PATH contains the configured remote ASN: install_from_loc_rib (the
only operation adding Adj-RIB-Out entries) filters every such entry out, and
the remaining operations preserve the entry set. -/
theorem adj_rib_out_no_remote_as (cfg : Config) (p : PeerS)
    (h : Reachable cfg p) :
    p.adj_rib_out.noAsLoop cfg.remote_as = true := by
  induction h with
  | init => rfl
  | start h ih => exact ih
  | message m h ih => cases m <;> exact ih
  | step connOk lr lr' e h hstep ih =>
    rename_i p p'
    obtain ⟨st, q, tc, aro, ari⟩ := p
    cases st <;> cases e <;>
      simp only [PeerS.handle_event] at hstep <;>
      first
        | (exact handleLocRibChange_noAsLoop _ _ _ _ _ hstep ih)
        | (rw [handleAdjRibOutChanged_aro _ _ _ _ _ hstep]; exact ih)
        | (rw [handleUpdateMsg_aro _ _ _ _ _ _ hstep]; exact ih)
        | (rw [handleAdjRibInChanged_aro _ _ _ _ hstep]; exact ih)
        | (split at hstep <;>
             first
               | (simp only [Option.some.injEq, Prod.mk.injEq] at hstep;
                  obtain ⟨h1, -⟩ := hstep; subst h1; exact ih)
               | (cases hstep))
        | (simp only [Option.some.injEq, Prod.mk.injEq] at hstep;
           obtain ⟨h1, -⟩ := hstep; subst h1; exact ih)

/-- A concrete peer configuration: AS 64512 at 127.0.0.1 facing AS 64513 at
127.0.0.2. -/
def cfgW : Config := ⟨64512, ⟨127, 0, 0, 1⟩, 64513, ⟨127, 0, 0, 2⟩, .Active,
  [⟨⟨10, 100, 220, 0⟩, 24⟩]⟩

/-- An empty concrete Loc-RIB. -/
def lrW : LocRib := ⟨Rib.new, 64512⟩

/-- A route whose AS_PATH does not contain 64513. -/
def goodEntryW : RibEntry :=
  ⟨⟨⟨10, 100, 220, 0⟩, 24⟩,
   [.Origin .Igp, .AsPath (.AsSequence []), .NextHop ⟨127, 0, 0, 1⟩]⟩

/-- A route whose AS_PATH contains the remote ASN 64513. -/
def badEntryW : RibEntry :=
  ⟨⟨⟨10, 200, 0, 0⟩, 16⟩,
   [.Origin .Igp, .AsPath (.AsSequence [64513]), .NextHop ⟨127, 0, 0, 1⟩]⟩

/-- A Loc-RIB holding one clean and one looping route, both New. -/
def lrRichW : LocRib := ⟨⟨[(goodEntryW, .New), (badEntryW, .New)]⟩, 64512⟩

/-- The peer after Idle/ManualStart. -/
def peerW1 : PeerS :=
  ⟨.Connect, [.TcpConnectionConfirmed], true, AdjRibOut.new, AdjRibIn.new⟩

/-- The peer after Connect/TcpConnectionConfirmed. -/
def peerW2 : PeerS :=
  ⟨.OpenSent, [.TcpConnectionConfirmed], true, AdjRibOut.new, AdjRibIn.new⟩

/-- The peer after OpenSent/BgpOpen. -/
def peerW3 : PeerS :=
  ⟨.OpenConfirm, [.TcpConnectionConfirmed], true, AdjRibOut.new, AdjRibIn.new⟩

/-- The peer after OpenConfirm/KeepAliveMsg. -/
def peerW4 : PeerS :=
  ⟨.Established, [.TcpConnectionConfirmed, .Established], true, AdjRibOut.new,
   AdjRibIn.new⟩

/-- The peer after Established/Established against lrRichW: only the clean
route reached the Adj-RIB-Out, marked UnChanged. -/
def peerW5 : PeerS :=
  ⟨.Established, [.TcpConnectionConfirmed, .Established, .AdjRibOutChanged], true,
   ⟨⟨[(goodEntryW, .UnChanged)]⟩⟩, AdjRibIn.new⟩

/-- Witness for C4: a peer driven from construction to Established and through
an Adj-RIB-Out rebuild against a Loc-RIB containing a looping route satisfies
the invariant. -/
theorem adj_rib_out_no_remote_as_witness :
    peerW5.adj_rib_out.noAsLoop cfgW.remote_as = true := by
  have r1 : Reachable cfgW peerW1 :=
    .step true lrW lrW .ManualStart .init (by decide)
  have r2 : Reachable cfgW peerW2 :=
    .step true lrW lrW .TcpConnectionConfirmed r1 (by decide)
  have r3 : Reachable cfgW peerW3 :=
    .step true lrW lrW (.BgpOpen (OpenMessage.new 64513 ⟨127, 0, 0, 2⟩)) r2 (by decide)
  have r4 : Reachable cfgW peerW4 :=
    .step true lrW lrW (.KeepAliveMsg ⟨⟩) r3 (by decide)
  have r5 : Reachable cfgW peerW5 :=
    .step true lrRichW lrRichW .Established r4 (by decide)
  exact adj_rib_out_no_remote_as cfgW peerW5 r5

/-- C6 counterexample: a KEEPALIVE received in OpenSent is merely enqueued by
handle_message, and handle_event then ignores it: the peer (state, queue,
RIBs) and the Loc-RIB come back unchanged and the session is not terminated,
contrary to the claim. -/
theorem unhandled_message_keeps_peer_unchanged :
    (peerW2.handle_message (.Keepalive ⟨⟩)).event_queue =
      [.TcpConnectionConfirmed, PeerEvent.KeepAliveMsg ⟨⟩] ∧
    (peerW2.handle_message (.Keepalive ⟨⟩)).state = peerW2.state ∧
    PeerS.handle_event true cfgW lrW peerW2 (.KeepAliveMsg ⟨⟩) =
      some (peerW2, lrW) := by
  refine ⟨rfl, rfl, rfl⟩

/-- Witness for C6 (amended) at the unhandled pair (OpenSent,
AdjRibOutChanged). -/
theorem unhandled_event_ignored_witness :
    PeerS.handle_event true cfgW lrW peerW2 .AdjRibOutChanged =
      some (peerW2, lrW) :=
  unhandled_event_ignored true cfgW lrW peerW2 .AdjRibOutChanged (by decide)

/-- Witness for C7 at the Idle/ManualStart transition. -/
theorem handle_event_monotone_witness :
    PeerS.new.state.rank ≤ peerW1.state.rank :=
  handle_event_monotone true cfgW lrW PeerS.new .ManualStart peerW1 lrW (by decide)

end Mrbgpdv2
